import Mathlib

/-!
# ZealFS: a shallow embedding of the filesystem core

This file embeds the ZealFS FUSE driver (files `src/zealfs.h`, `src/zealfs_v1.c`,
`include/zealfs_v2.h`, `src/zealfs_v2.c`) into Lean and proves properties of the
embedded operations.

Modelling conventions:
* The V1 disk image is byte addressed: `Img := Nat → Nat`, every read goes through
  `readB` (which reduces modulo 256, as the C `uint8_t` accesses do) and every write
  through `writeB`/`memcpyB` (which store the value modulo 256).  Offsets follow the
  packed `ZealFSHeader`/`ZealFileEntry` layout of `zealfs.h`: magic at 0, version at
  1, `bitmap_size` at 2, `free_pages` at 3, `pages_bitmap` at 4..35, reserved at
  36..63, root entries from 64; in an entry: flags at +0, name at +1..+16,
  `start_page` at +17, `size` (u16 LE) at +18/+19, the BCD date at +20..+27.
* The V2 image is modelled by the structure `V2State` whose fields mirror the packed
  V2 header (`bitmap_size`, `free_pages`, `page_size` code, `pages_bitmap`), the FAT
  (the `u16` array stored in the page(s) after the header) and the byte-addressed
  data area.  V2 entries are passed by value (`V2Entry`), mirroring how the C code
  passes `ZealFileEntry*` handles.
* C loops whose variant is the number of bytes left to transfer are written with a
  structural fuel argument; the callers pass a fuel that dominates the iteration
  count (each iteration consumes at least one byte / one chain page), so the fueled
  function agrees with the C loop on every terminating execution.  The chain walk in
  `unlink` is bounded by 256, the number of V1 pages; the C loop does not terminate
  on a cyclic chain.
* Negative `-errno` returns are modelled as `Except.error` with the Linux errno
  value; the V1 `assert(next != 0)` (which aborts the process, leaving the on-disk
  image unmodified) is modelled by `none` from the write loop.
-/

set_option maxRecDepth 8000

namespace ZealFS

/-! ## errno constants (Linux values, as used through `-EXXX` in the sources) -/

def ENOENT : Nat := 2
def EACCES : Nat := 13
def EEXIST : Nat := 17
def ENOTDIR : Nat := 20
def EISDIR : Nat := 21
def EFBIG : Nat := 27
def ENOSPC : Nat := 28
def ENAMETOOLONG : Nat := 36
def ENOTEMPTY : Nat := 39
def ENFILE : Nat := 23

/-! ## Byte-image primitives (V1 image cache `g_image`) -/

/-- A byte-addressed image: the V1 `g_image` cache. -/
def Img : Type := Nat → Nat

/-- Read one byte, as the C `uint8_t` accesses do. -/
def readB (img : Img) (a : Nat) : Nat := img a % 256

/-- Store one byte. -/
def writeB (img : Img) (a v : Nat) : Img :=
  fun x => if x = a then v % 256 else img x

/-- `memcpy(img + dst, src, count)` for a byte list `src`. -/
def memcpyB (img : Img) (dst : Nat) (src : List Nat) (count : Nat) : Img :=
  fun x => if dst ≤ x ∧ x < dst + count then src.getD (x - dst) 0 % 256 else img x

/-! ## `zealfs.h`: BCD helper, page allocator and `freePage` -/

/-- `toBCD` from `zealfs.h`. -/
def toBCD (v : Nat) : Nat := ((v / 10) % 10) <<< 4 ||| (v % 10)

/-- The `for` loop of `allocatePage`: index of the first byte `≠ 0xff` among
`get i, get (i+1), ...` (`n` entries). -/
def findFirstNonFF (get : Nat → Nat) : Nat → Nat → Option Nat
  | 0, _ => none
  | n+1, i => if get i ≠ 255 then some i else findFirstNonFF get n (i + 1)

/-- The `while ((value & 1) != 0)` loop of `allocatePage`: index of the lowest zero
bit.  The fuel 16 dominates the at most 8 iterations possible for a byte. -/
def lowestZeroBit : Nat → Nat → Nat
  | 0, _ => 0
  | fuel+1, v => if v % 2 = 1 then 1 + lowestZeroBit fuel (v / 2) else 0

/-- `allocatePage` from `zealfs.h`.  Returns the allocated page (a `uint8_t`, hence
the `% 256`) and the updated image; `(0, img)` when the bitmap is full. -/
def allocatePage (img : Img) : Nat × Img :=
  let size := readB img 2
  match findFirstNonFF (fun i => readB img (4 + i)) size 0 with
  | none => (0, img)
  | some i =>
      let value := readB img (4 + i)
      let idx := lowestZeroBit 16 value
      let img1 := writeB img (4 + i) (value ||| (1 <<< idx))
      let img2 := writeB img1 3 (readB img1 3 + 255)
      ((8 * i + idx) % 256, img2)

/-- `freePage` from `zealfs.h`: clear the page's bitmap bit, increment
`free_pages` (a `uint8_t`, hence the wrap-around in `writeB`). -/
def freePage (img : Img) (page : Nat) : Img :=
  let a := 4 + page / 8
  let img1 := writeB img a (readB img a &&& (255 ^^^ (1 <<< (page % 8))))
  writeB img1 3 (readB img1 3 + 1)

/-! ## V1 path resolution (`browse_path` in `zealfs_v1.c`) -/

/-- `strchr(path, '/')`: index of the first slash. -/
def findSlash : List Nat → Option Nat
  | [] => none
  | c :: cs => if c = 47 then some 0 else (findSlash cs).map (· + 1)

/-- `strncmp(a, b, n) == 0` on byte streams: stops at the first difference or at a
null byte found in both strings. -/
def cmpNZ (a b : Nat → Nat) : Nat → Nat → Bool
  | _, 0 => true
  | j, n+1 =>
    if a j ≠ b j then false
    else if a j = 0 then true
    else cmpNZ a b (j + 1) n

/-- The entry scan loop of `browse_path`.  `i` is the loop counter, the first
argument of the trailing arrows the remaining iterations.  The accumulator is the
content of the caller's `*free_entry`: every unoccupied slot seen while scanning
the last path segment overwrites it. -/
def scanDir (img : Img) (seg : List Nat) (base : Nat) (isLast wantFree : Bool) :
    Nat → Nat → Option Nat → Option Nat × Option Nat
  | 0, _, acc => (none, acc)
  | n+1, i, acc =>
    let eaddr := base + 32 * i
    if readB img eaddr &&& 128 = 0 then
      scanDir img seg base isLast wantFree n (i + 1)
        (if isLast && wantFree then some eaddr else acc)
    else if cmpNZ (fun j => readB img (eaddr + 1 + j)) (fun j => seg.getD j 0 % 256) 0 16 then
      (some eaddr, acc)
    else
      scanDir img seg base isLast wantFree n (i + 1) acc

/-- `browse_path` from `zealfs_v1.c`.  The fuel dominates the recursion depth:
each recursive call consumes at least the segment's slash, so `path.length + 1`
suffices.  `ROOT_MAX_ENTRIES = (256 - 64) / 32 = 6`, `DIR_MAX_ENTRIES = 8`. -/
def browseAux (img : Img) :
    Nat → List Nat → Nat → Bool → Bool → Option Nat → Option Nat × Option Nat
  | 0, _, _, _, _, acc => (none, acc)
  | fuel+1, path, base, root, wantFree, acc =>
    let maxE := if root then 6 else 8
    match findSlash path with
    | none =>
      if path.length > 16 then (none, acc)
      else scanDir img path base true wantFree maxE 0 acc
    | some k =>
      let seg := path.take k
      let rest := path.drop (k + 1)
      if seg.length > 16 then (none, acc)
      else
        match scanDir img seg base false wantFree maxE 0 acc with
        | (some eaddr, acc2) =>
            browseAux img fuel rest (readB img (eaddr + 17) <<< 8) false wantFree acc2
        | (none, acc2) => (none, acc2)

/-- Entry point of `browse_path`: start at the root entries (offset 64 in page 0). -/
def browse_path (img : Img) (path : List Nat) (wantFree : Bool) :
    Option Nat × Option Nat :=
  browseAux img (path.length + 1) path 64 true wantFree none

/-! ## V1 operations -/

/-- `format` from `zealfs_v1.c` (the in-memory part: the `g_image` cache is
`calloc`-zeroed, then the header fields are set). -/
def formatV1 (imgSize : Nat) : Img :=
  fun a =>
    if a = 0 then 90            -- magic 'Z'
    else if a = 1 then 1        -- version
    else if a = 2 then imgSize / 256 / 8 % 256
    else if a = 3 then (imgSize / 256 - 1) % 256
    else if a = 4 then 1        -- pages_bitmap[0]: page 0 occupied
    else 0

/-- The wall-clock time `localtime` hands to `zealfs_create_both`, already split
into the fields the code converts with `toBCD`. -/
structure Tm where
  yearHi : Nat
  yearLo : Nat
  mon : Nat
  day : Nat
  wday : Nat
  hour : Nat
  minute : Nat
  sec : Nat

/-- POSIX `basename` on a byte string: drop trailing slashes, keep the last
component. -/
def basenameBytes (p : List Nat) : List Nat :=
  let q := (p.reverse.dropWhile (· == 47)).reverse
  if q.isEmpty then (if p.isEmpty then [46] else [47])
  else (q.reverse.takeWhile (· != 47)).reverse

/-- The V1 file size recorded in an entry (u16 LE at offsets +18/+19). -/
def entrySizeV1 (img : Img) (eaddr : Nat) : Nat :=
  readB img (eaddr + 18) + 256 * readB img (eaddr + 19)

/-- `zealfs_create_both` from `zealfs_v1.c`.  On success returns the entry address
(the value stored into `info->fh`) and the new image; errors happen before any
image mutation. -/
def zealfs_create_both (isdir : Bool) (img : Img) (path : List Nat) (t : Tm) :
    Except Nat (Nat × Img) :=
  match browse_path img (path.drop 1) true with
  | (some _, _) => Except.error EEXIST
  | (none, none) => Except.error ENFILE
  | (none, some empty) =>
    let filename := basenameBytes path
    if filename.length > 16 then Except.error ENAMETOOLONG
    else
      let r := allocatePage img
      if r.1 = 0 then Except.error EFBIG
      else
        let img := r.2
        let img := writeB img empty (128 ||| (if isdir then 1 else 0))
        let img := writeB img (empty + 17) r.1
        let img := memcpyB img (empty + 1) (List.replicate 16 0) 16
        let img := memcpyB img (empty + 1) filename filename.length
        let sz : Nat := if isdir then 256 else 0
        let img := writeB img (empty + 18) (sz % 256)
        let img := writeB img (empty + 19) (sz / 256)
        let img := writeB img (empty + 20) (toBCD t.yearHi)
        let img := writeB img (empty + 21) (toBCD t.yearLo)
        let img := writeB img (empty + 22) (toBCD t.mon)
        let img := writeB img (empty + 23) (toBCD t.day)
        let img := writeB img (empty + 24) (toBCD t.wday)
        let img := writeB img (empty + 25) (toBCD t.hour)
        let img := writeB img (empty + 26) (toBCD t.minute)
        let img := writeB img (empty + 27) (toBCD t.sec)
        let img := memcpyB img (r.1 <<< 8) (List.replicate 256 0) 256
        Except.ok (empty, img)

/-- `zealfs_create`. -/
def zealfs_create_v1 (img : Img) (path : List Nat) (t : Tm) : Except Nat (Nat × Img) :=
  zealfs_create_both false img path t

/-- `zealfs_mkdir`. -/
def zealfs_mkdir_v1 (img : Img) (path : List Nat) (t : Tm) : Except Nat (Nat × Img) :=
  zealfs_create_both true img path t

/-- `zealfs_open` from `zealfs_v1.c`: returns the entry address stored into
`info->fh`. -/
def zealfs_open_v1 (img : Img) (path : List Nat) : Except Nat Nat :=
  if path = [47] then Except.error EISDIR
  else
    match browse_path img (path.drop 1) false with
    | (some e, _) => if readB img e &&& 1 ≠ 0 then Except.error ENOTDIR else Except.ok e
    | (none, _) => Except.error ENOENT

/-- The page-skipping loop shared by `zealfs_read`/`zealfs_write` (V1): start from
a page's byte address and follow the link byte at its offset 0, `n` times. -/
def jumpChainV1 (img : Img) : Nat → Nat → Nat
  | ptr, 0 => ptr
  | ptr, n+1 => jumpChainV1 img (readB img ptr <<< 8) n

/-- The copy loop of `zealfs_read` (V1): returns the list of bytes copied into
`buf`.  Fuel dominates the iteration count (each iteration copies at least one
byte, since `oip < 255` at every call). -/
def readLoopV1 : Nat → Img → Nat → Nat → Nat → List Nat
  | 0, _, _, _, _ => []
  | fuel+1, img, ptr, size, oip =>
    if size = 0 then []
    else
      let count := min (255 - oip) size
      let bytes := (List.range count).map fun j => readB img (ptr + 1 + oip + j)
      let ptr2 := if size ≠ count then readB img ptr <<< 8 else ptr
      bytes ++ readLoopV1 fuel img ptr2 (size - count) 0

/-- `zealfs_read` from `zealfs_v1.c`: returns the copied bytes and the value the
function returns (`total`). -/
def zealfs_read_v1 (img : Img) (eaddr : Nat) (size offset : Nat) : List Nat × Nat :=
  let jump := offset / 255
  let oip := offset % 255
  let size := min size (entrySizeV1 img eaddr)
  let total := size
  let ptr := jumpChainV1 img (readB img (eaddr + 17) <<< 8) jump
  (readLoopV1 size img ptr size oip, total)

/-- One iteration's image mutations in the write loop of `zealfs_write` (V1):
`memcpy(page + 1 + offset_in_page, buf, count)` followed by
`entry->size += (uint16_t) count` (stored little-endian at `e+18`/`e+19`). -/
def wstep (img : Img) (e ptr : Nat) (buf : List Nat) (count oip : Nat) : Img :=
  let img1 := memcpyB img (ptr + 1 + oip) buf count
  let esz := (entrySizeV1 img1 e + count) % 65536
  writeB (writeB img1 (e + 18) (esz % 256)) (e + 19) (esz / 256)

/-- The write loop of `zealfs_write` (V1).  `none` models the
`assert(next != 0)` failure (the process aborts).  Fuel dominates the iteration
count as for `readLoopV1`. -/
def writeLoopV1 : Nat → Img → Nat → Nat → List Nat → Nat → Nat → Option Img
  | 0, img, _, _, _, _, _ => some img
  | fuel+1, img, eaddr, ptr, buf, size, oip =>
    if size = 0 then some img
    else
      let count := min (255 - oip) size
      let img := wstep img eaddr ptr buf count oip
      let buf := buf.drop count
      let size := size - count
      let next := readB img ptr
      if next ≠ 0 then
        writeLoopV1 fuel img eaddr (next <<< 8) buf size 0
      else if size ≠ 0 then
        let r := allocatePage img
        if r.1 = 0 then none
        else writeLoopV1 fuel (writeB r.2 ptr r.1) eaddr (r.1 <<< 8) buf size 0
      else some img

/-- `zealfs_write` from `zealfs_v1.c`.  Returns the C return value and the image
after the call (unchanged on the `-EFBIG` path, which runs before any mutation;
on an assert abort nothing is ever flushed, so the image is the original one). -/
def zealfs_write_v1 (img : Img) (eaddr : Nat) (buf : List Nat) (size offset : Nat) :
    Except Nat Nat × Img :=
  let jump := offset / 255
  let oip := offset % 255
  let remaining := 255 - oip
  let total := size
  if readB img 3 * 255 + remaining < size then (Except.error EFBIG, img)
  else
    let ptr := jumpChainV1 img (readB img (eaddr + 17) <<< 8) jump
    match writeLoopV1 size img eaddr ptr buf size oip with
    | none => (Except.error EFBIG, img)   -- assert abort: modelled as failure
    | some img2 => (Except.ok total, img2)

/-- The chain-freeing loop of `zealfs_unlink` (V1): `while (page != 0)` free the
page and follow the link byte at its offset 0.  The C code never clears those
link bytes.  The fuel 256 dominates any terminating chain (256 pages); the C
loop does not terminate on a cyclic chain. -/
def unlinkChainV1 : Nat → Img → Nat → Img
  | 0, img, _ => img
  | fuel+1, img, page =>
    if page = 0 then img
    else
      let img2 := freePage img page
      unlinkChainV1 fuel img2 (readB img2 (page <<< 8))

/-- `zealfs_unlink` from `zealfs_v1.c`. -/
def zealfs_unlink_v1 (img : Img) (path : List Nat) : Except Nat Unit × Img :=
  match browse_path img (path.drop 1) false with
  | (none, _) => (Except.error ENOENT, img)
  | (some eaddr, _) =>
    if readB img eaddr &&& 1 ≠ 0 then (Except.error EISDIR, img)
    else
      let img2 := unlinkChainV1 256 img (readB img (eaddr + 17))
      (Except.ok (), writeB img2 eaddr 0)

/-! ## V2 model (`zealfs_v2.h` / `zealfs_v2.c`) -/

/-- The V2 header fields, the FAT and the byte-addressed data area. -/
structure V2State where
  magic : Nat
  version : Nat
  bitmap_size : Nat
  free_pages : Nat
  page_size : Nat
  pages_bitmap : Nat → Nat
  fat : Nat → Nat
  data : Nat → Nat

/-- The V2 directory entry a `fi->fh` handle points at. -/
structure V2Entry where
  flags : Nat
  name : List Nat
  start_page : Nat
  size : Nat

/-- `getPageSize` from `zealfs_v2.h`: `256 << page_size`. -/
def getPageSize (s : V2State) : Nat := 256 <<< s.page_size

/-- `pageSizeFromDiskSize` from `zealfs_v2.h`. -/
def pageSizeFromDiskSize (d : Nat) : Nat :=
  if d ≤ 65536 then 256
  else if d ≤ 262144 then 512
  else if d ≤ 1048576 then 1024
  else if d ≤ 4194304 then 2048
  else if d ≤ 16777216 then 4096
  else if d ≤ 67108864 then 8192
  else if d ≤ 268435456 then 16384
  else if d ≤ 1073741824 then 32768
  else 65536

/-- Bit length of a natural number (structural fuel version; 32 dominates all the
values fed to it). -/
def bitLenAux : Nat → Nat → Nat
  | 0, _ => 0
  | fuel+1, n => if n = 0 then 0 else 1 + bitLenAux fuel (n / 2)

/-- `__builtin_clz` on a 32-bit value (well defined for nonzero arguments, the
only ones the code uses). -/
def clz32 (v : Nat) : Nat := 32 - bitLenAux 32 v

/-- `format` from `zealfs_v2.c` (the in-memory part).  Note that the code compares
`header->page_size` — the page-size *code* in `[0,8]` — with 256, so the
`fat_pages_count` reduction for 256-byte pages can never trigger. -/
def formatV2 (imgSize : Nat) : V2State :=
  let psb := pageSizeFromDiskSize imgSize
  let pageCode := 32 - clz32 (psb >>> 8) - 1
  let fatPages := 1 + (if pageCode = 256 then 0 else 1)
  { magic := 90
    version := 2
    bitmap_size := imgSize / psb / 8 % 65536
    free_pages := (imgSize / psb - 1 - fatPages) % 65536
    page_size := pageCode
    pages_bitmap := fun i => if i = 0 then 3 ||| (if fatPages > 1 then 4 else 0) else 0
    fat := fun _ => 0
    data := fun _ => 0 }

/-- `allocatePage` from `zealfs_v2.h` (same algorithm as V1, `uint16_t` fields). -/
def allocatePage_v2 (s : V2State) : Nat × V2State :=
  match findFirstNonFF (fun i => s.pages_bitmap i % 256) s.bitmap_size 0 with
  | none => (0, s)
  | some i =>
      let value := s.pages_bitmap i % 256
      let idx := lowestZeroBit 16 value
      ((8 * i + idx) % 65536,
       { s with
         pages_bitmap := fun j => if j = i then (value ||| (1 <<< idx)) % 256 else s.pages_bitmap j
         free_pages := (s.free_pages + 65535) % 65536 })

/-- `freePage` from `zealfs_v2.h`. -/
def freePage_v2 (s : V2State) (page : Nat) : V2State :=
  { s with
    pages_bitmap := fun j =>
      if j = page / 8 then (s.pages_bitmap (page / 8) % 256) &&& (255 ^^^ (1 <<< (page % 8)))
      else s.pages_bitmap j
    free_pages := (s.free_pages + 1) % 65536 }

/-- `getNextFromFat` from `zealfs_v2.h`. -/
def getNextFromFat (s : V2State) (p : Nat) : Nat := s.fat p % 65536

/-- `setNextInFat` from `zealfs_v2.h`. -/
def setNextInFat (s : V2State) (p v : Nat) : V2State :=
  { s with fat := fun q => if q = p then v % 65536 else s.fat q }

/-- The FAT walk of `zealfs_read` (V2). -/
def fatJump (s : V2State) : Nat → Nat → Nat
  | p, 0 => p
  | p, n+1 => fatJump s (getNextFromFat s p) n

/-- The copy loop of `zealfs_read` (V2). -/
def readLoopV2 (P : Nat) : Nat → V2State → Nat → Nat → Nat → List Nat
  | 0, _, _, _, _ => []
  | fuel+1, s, cur, size, oip =>
    if size = 0 then []
    else
      let count := min (P - oip) size
      let bytes := (List.range count).map fun j => s.data (cur * P + oip + j) % 256
      let cur2 := if size ≠ count then getNextFromFat s cur else cur
      bytes ++ readLoopV2 P fuel s cur2 (size - count) 0

/-- `zealfs_read` from `zealfs_v2.c`. -/
def zealfs_read_v2 (s : V2State) (e : V2Entry) (size offset : Nat) : List Nat × Nat :=
  let P := getPageSize s
  let jump := offset / P
  let oip := offset % P
  let size := min size e.size
  let cur := fatJump s e.start_page jump
  (readLoopV2 P size s cur size oip, size)

/-- The page-pointer walk at the start of `zealfs_write` (V2): the code follows
`*page` — the first **data byte** of the current page — instead of the FAT. -/
def v2PtrJump (s : V2State) (P : Nat) : Nat → Nat → Nat
  | ptr, 0 => ptr
  | ptr, n+1 => v2PtrJump s P ((s.data ptr % 256) * P) n

/-- The write loop of `zealfs_write` (V2).  Chain decisions follow the FAT from
`current_page`; the data pointer `ptr` is reassigned only when a page is
allocated, exactly as in the C code.  `entry->size += (uint16_t) count` is the
C cast, hence `count % 65536` and the `u32` wrap. -/
def writeLoopV2 (P : Nat) :
    Nat → V2State → V2Entry → Nat → Nat → List Nat → Nat → Nat →
    Except Nat Unit × V2State × V2Entry
  | 0, s, e, _, _, _, _, _ => (Except.ok (), s, e)
  | fuel+1, s, e, ptr, cur, buf, size, oip =>
    if size = 0 then (Except.ok (), s, e)
    else
      let count := min (P - oip) size
      let s := { s with data := fun a =>
                  if ptr + oip ≤ a ∧ a < ptr + oip + count
                  then buf.getD (a - (ptr + oip)) 0 % 256 else s.data a }
      let e := { e with size := (e.size + count % 65536) % 4294967296 }
      let buf := buf.drop count
      let size := size - count
      let next := getNextFromFat s cur
      if next ≠ 0 then
        writeLoopV2 P fuel s e ptr next buf size 0
      else if size ≠ 0 then
        let r := allocatePage_v2 s
        if r.1 = 0 then (Except.error ENOSPC, r.2, e)
        else
          let s := setNextInFat r.2 cur r.1
          writeLoopV2 P fuel s e (r.1 * P) r.1 buf size 0
      else (Except.ok (), s, e)

/-- `zealfs_write` from `zealfs_v2.c`.  The no-space pre-check returns `-EFBIG`
(the `-ENOSPC` return lives inside the loop, on allocation failure). -/
def zealfs_write_v2 (s : V2State) (e : V2Entry) (buf : List Nat) (size offset : Nat) :
    Except Nat Nat × V2State × V2Entry :=
  let P := getPageSize s
  let jump := offset / P
  let oip := offset % P
  let remaining := P - oip
  let total := size
  if s.free_pages * P + remaining < size then (Except.error EFBIG, s, e)
  else
    let ptr := v2PtrJump s P (e.start_page * P) jump
    match writeLoopV2 P size s e ptr e.start_page buf size oip with
    | (Except.ok _, s2, e2) => (Except.ok total, s2, e2)
    | (Except.error c, s2, e2) => (Except.error c, s2, e2)

/-! ## Specification-side definitions (worded from the spec, for comparison) -/

/-- Worded from the spec/claims: "the exact number of 0 bits among the first
`bitmap_size * 8` bits of `pages_bitmap`" (V1 header). -/
def specZeroBitCount (img : Img) : Nat :=
  ((List.range (readB img 2 * 8)).filter
    (fun n => readB img (4 + n / 8) &&& (1 <<< (n % 8)) == 0)).length

/-- Occupancy test on a V1 entry (bit 7 of the flags byte). -/
def occB (img : Img) (a : Nat) : Bool := readB img a &&& 128 != 0

/-- Name match test the scan loop performs on an occupied V1 entry. -/
def matchB (img : Img) (seg : List Nat) (a : Nat) : Bool :=
  cmpNZ (fun j => readB img (a + 1 + j)) (fun j => seg.getD j 0 % 256) 0 16

/-- Specification-side description of the free slots seen by the scan loop:
the unoccupied indices among `i, ..., i+count-1` that precede the first
occupied name match. -/
def scannedFreeIdxs (img : Img) (seg : List Nat) (base count i : Nat) : List Nat :=
  ((List.range' i count).takeWhile
      (fun k => !(occB img (base + 32 * k) && matchB img seg (base + 32 * k)))).filter
    (fun k => !occB img (base + 32 * k))

/-! ## Concrete images and runs used by the claims -/

/-- An arbitrary wall-clock instant for `create`. -/
def t0 : Tm := ⟨20, 25, 1, 2, 3, 12, 30, 45⟩

/-- A freshly formatted 2 KB V1 image: 8 pages, `bitmap_size = 1`,
`free_pages = 7`, root entries at 64..255 (6 slots). -/
def fmt2048 : Img := formatV1 2048

/-- Path `"/a"`. -/
def pA : List Nat := [47, 97]

/-- Path `"/b"`. -/
def pB : List Nat := [47, 98]

/-- 600 bytes of `0xAB`: three V1 data pages. -/
def bufA : List Nat := List.replicate 600 171

/-- 300 bytes of `0x22`: two V1 data pages. -/
def bufB : List Nat := List.replicate 300 34

/-- Extract the successful result of `create` (all the runs below succeed). -/
def exOk (r : Except Nat (Nat × Img)) : Nat × Img :=
  r.toOption.getD (0, fun _ => 0)

/-- `create /a` on the fresh image: populates root slot 5 (address 224),
allocates page 1. -/
def runCreateA : Except Nat (Nat × Img) := zealfs_create_v1 fmt2048 pA t0

/-- Image after `create /a`. -/
def imgCreateA : Img := (exOk runCreateA).2

/-- `write(/a, 600 bytes, offset 0)`: chain pages 1 → 2 → 3. -/
def runWriteA : Except Nat Nat × Img := zealfs_write_v1 imgCreateA 224 bufA 600 0

/-- Image after the 600-byte write to `/a`. -/
def imgWriteA : Img := runWriteA.2

/-- `unlink /a`: frees pages 1,2,3 but leaves their link bytes (2, 3) behind. -/
def runUnlinkA : Except Nat Unit × Img := zealfs_unlink_v1 imgWriteA pA

/-- Image after `unlink /a`. -/
def imgUnlinkA : Img := runUnlinkA.2

/-- `create /b`: reuses slot 224 and page 1 (page 1 is zeroed by create). -/
def runCreateB : Except Nat (Nat × Img) := zealfs_create_v1 imgUnlinkA pB t0

/-- Image after `create /b`. -/
def imgCreateB : Img := (exOk runCreateB).2

/-- `write(/b, 300 bytes, offset 0)`: extends the chain with page 2, whose stale
link byte still holds 3. -/
def runWriteB : Except Nat Nat × Img := zealfs_write_v1 imgCreateB 224 bufB 300 0

/-- Image after the 300-byte write to `/b`. -/
def imgWriteB : Img := runWriteB.2

/-- `unlink /b`: follows the stale chain 1 → 2 → 3 and double-frees page 3. -/
def runUnlinkB : Except Nat Unit × Img := zealfs_unlink_v1 imgWriteB pB

/-- Final image of the C1 sequence. -/
def imgFinal : Img := runUnlinkB.2

/-- A 2-byte write to `/a` ("Hi"), for the read-clamp counterexample. -/
def runWriteHi : Except Nat Nat × Img := zealfs_write_v1 imgCreateA 224 [72, 105] 2 0

/-- Image with `/a` of size 2. -/
def imgHi : Img := runWriteHi.2

/-- A 300-byte write to `/a` (chain 1 → 2), for the unlink claim. -/
def runWriteA300 : Except Nat Nat × Img := zealfs_write_v1 imgCreateA 224 bufB 300 0

/-- Image with `/a` of size 300 (chain 1 → 2). -/
def imgA300 : Img := runWriteA300.2

/-- `unlink /a` on the 2-page file. -/
def runUnlinkA300 : Except Nat Unit × Img := zealfs_unlink_v1 imgA300 pA

/-- Image after unlinking the 2-page `/a`. -/
def imgUnlinkA300 : Img := runUnlinkA300.2

/-- Path `"/f"`. -/
def pF : List Nat := [47, 102]

/-- Path `"/f/x"`. -/
def pFX : List Nat := [47, 102, 47, 120]

/-- 49 bytes whose image inside page 1 makes entry slot 1 of that page look like
an occupied file entry named "x": page byte 32 (buf index 31) is the flags byte
0x80, page bytes 33.. are the name. -/
def bufFX : List Nat := List.replicate 31 0 ++ [128, 120] ++ List.replicate 16 0

/-- `create /f` then write `bufFX` into it: `/f` is a plain file whose content
page parses as a directory containing `x`. -/
def runCreateF : Except Nat (Nat × Img) := zealfs_create_v1 fmt2048 pF t0

/-- Image after `create /f`. -/
def imgCreateF : Img := (exOk runCreateF).2

/-- Write the crafted 49 bytes into `/f`. -/
def runWriteF : Except Nat Nat × Img := zealfs_write_v1 imgCreateF 224 bufFX 49 0

/-- Image where `/f` is a file whose content looks like a directory. -/
def imgFX : Img := runWriteF.2

/-- Path `"/x"`. -/
def pX : List Nat := [47, 120]

/-- A 17-byte basename: `"/aaaaaaaaaaaaaaaaa"`. -/
def pLong : List Nat := 47 :: List.replicate 17 97

/-- V2 image formatted at 64 KB: page size 256 (code 0). -/
def v2fmt64k : V2State := formatV2 65536

/-- A concrete V2 entry handle (file at page 5, empty). -/
def v2entry5 : V2Entry := ⟨128, [102], 5, 0⟩

/-- Bit `n` of the V1 bitmap is clear (page `n` free). -/
abbrev bitFreeV1 (img : Img) (n : Nat) : Prop :=
  readB img (4 + n / 8) &&& (1 <<< (n % 8)) = 0

/-- Bit `n` of the V2 bitmap is clear (page `n` free). -/
abbrev bitFreeV2 (s : V2State) (n : Nat) : Prop :=
  (s.pages_bitmap (n / 8) % 256) &&& (1 <<< (n % 8)) = 0

/-! # Lemmas and theorems -/

/-! ## Byte and image primitives -/

theorem readB_writeB_same (img : Img) (a v : Nat) : readB (writeB img a v) a = v % 256 := by
  simp [readB, writeB, Nat.mod_mod]

theorem readB_writeB_other (img : Img) (a v x : Nat) (h : x ≠ a) :
    readB (writeB img a v) x = readB img x := by
  simp [readB, writeB, h]

theorem writeB_apply_other (img : Img) (a v x : Nat) (h : x ≠ a) :
    writeB img a v x = img x := by
  simp [writeB, h]

theorem readB_lt (img : Img) (a : Nat) : readB img a < 256 :=
  Nat.mod_lt _ (by norm_num)

/-! ## The byte-scan helpers of `allocatePage` -/

theorem findFirstNonFF_succ (get : Nat → Nat) (m i : Nat) :
    findFirstNonFF get (m + 1) i =
      if get i ≠ 255 then some i else findFirstNonFF get m (i + 1) := rfl

theorem findFirstNonFF_eq_none {get : Nat → Nat} :
    ∀ n i, findFirstNonFF get n i = none ↔ ∀ k < n, get (i + k) = 255 := by
  intro n
  induction n with
  | zero => intro i; simp [findFirstNonFF]
  | succ m ih =>
    intro i
    rw [findFirstNonFF_succ]
    by_cases h : get i = 255
    · rw [if_neg (by simp [h]), ih]
      constructor
      · intro hall k hk
        cases k with
        | zero => simpa using h
        | succ k' =>
          have := hall k' (by omega)
          rw [show i + (k' + 1) = i + 1 + k' by omega]
          exact this
      · intro hall k hk
        have := hall (k + 1) (by omega)
        rw [show i + 1 + k = i + (k + 1) by omega]
        exact this
    · rw [if_pos h]
      constructor
      · intro hc; exact Option.noConfusion hc
      · intro hall
        exact absurd (by simpa using hall 0 (by omega)) h

theorem findFirstNonFF_eq_some {get : Nat → Nat} :
    ∀ n i j, i ≤ j → j < i + n → get j ≠ 255 → (∀ k, i ≤ k → k < j → get k = 255) →
      findFirstNonFF get n i = some j := by
  intro n
  induction n with
  | zero => intro i j h1 h2 _ _; omega
  | succ m ih =>
    intro i j h1 h2 hj hbefore
    rw [findFirstNonFF_succ]
    by_cases hij : i = j
    · subst hij; rw [if_pos hj]
    · have hi : get i = 255 := hbefore i le_rfl (by omega)
      have hnext : findFirstNonFF get m (i + 1) = some j :=
        ih (i + 1) j (by omega) (by omega) hj (fun k hk1 hk2 => hbefore k (by omega) hk2)
      rw [if_neg (by simp [hi]), hnext]

/-! ## Byte facts, settled by enumeration -/

theorem lzb_spec : ∀ v < 256, v ≠ 255 →
    lowestZeroBit 16 v < 8 ∧ v &&& (1 <<< lowestZeroBit 16 v) = 0 ∧
      ∀ m < lowestZeroBit 16 v, v &&& (1 <<< m) ≠ 0 := by decide

theorem lzb_least : ∀ v < 256, ∀ k < 8, v &&& (1 <<< k) = 0 →
    (∀ m < k, v &&& (1 <<< m) ≠ 0) → lowestZeroBit 16 v = k := by decide

theorem byte_allset_eq_255 : ∀ v < 256, (∀ k < 8, v &&& (1 <<< k) ≠ 0) → v = 255 := by decide

theorem byte_or_bit : ∀ v < 256, ∀ k < 8, (v ||| (1 <<< k)) < 256 ∧ (v ||| (1 <<< k)) ≠ 0 := by
  decide

theorem ff_bit_set : ∀ k < 8, (255 : Nat) &&& (1 <<< k) ≠ 0 := by decide

/-! ## Allocator correctness (claim C4) -/

theorem writeB_apply_same (img : Img) (a v : Nat) : writeB img a v a = v % 256 := by
  simp [writeB]

theorem alloc_v1_success (img : Img) (p : Nat) (hb : readB img 2 ≤ 32)
    (hp : p < 8 * readB img 2) (hfree : bitFreeV1 img p)
    (hleast : ∀ q < p, ¬ bitFreeV1 img q) :
    (allocatePage img).1 = p ∧
    readB (allocatePage img).2 3 = (readB img 3 + 255) % 256 ∧
    readB (allocatePage img).2 (4 + p / 8) = readB img (4 + p / 8) ||| (1 <<< (p % 8)) ∧
    (∀ a, a ≠ 3 → a ≠ 4 + p / 8 → (allocatePage img).2 a = img a) := by
  have hk8 : p % 8 < 8 := Nat.mod_lt _ (by norm_num)
  have hjb : p / 8 < readB img 2 := by omega
  have hbefore : ∀ i, i < p / 8 → readB img (4 + i) = 255 := by
    intro i hi
    apply byte_allset_eq_255 _ (readB_lt img _)
    intro k hk
    have hq := hleast (8 * i + k) (by omega)
    simp only [bitFreeV1] at hq
    rw [show (8 * i + k) / 8 = i by omega, show (8 * i + k) % 8 = k by omega] at hq
    exact hq
  have hvne : readB img (4 + p / 8) ≠ 255 := by
    intro hv
    simp only [bitFreeV1, hv] at hfree
    exact ff_bit_set _ hk8 hfree
  have hfind : findFirstNonFF (fun i => readB img (4 + i)) (readB img 2) 0 = some (p / 8) :=
    findFirstNonFF_eq_some _ 0 _ (Nat.zero_le _) (by omega) hvne
      (fun k _ hk2 => hbefore k hk2)
  have hidx : lowestZeroBit 16 (readB img (4 + p / 8)) = p % 8 := by
    apply lzb_least _ (readB_lt img _) _ hk8 hfree
    intro m hm
    have hq := hleast (8 * (p / 8) + m) (by omega)
    simp only [bitFreeV1] at hq
    rw [show (8 * (p / 8) + m) / 8 = p / 8 by omega,
        show (8 * (p / 8) + m) % 8 = m by omega] at hq
    exact hq
  have hlt : readB img (4 + p / 8) ||| (1 <<< (p % 8)) < 256 :=
    (byte_or_bit _ (readB_lt img _) _ hk8).1
  simp only [allocatePage, hfind, hidx]
  refine ⟨by omega, ?_, ?_, ?_⟩
  · rw [readB_writeB_same, readB_writeB_other _ _ _ _ (by omega)]
  · rw [readB_writeB_other _ _ _ _ (by omega), readB_writeB_same, Nat.mod_eq_of_lt hlt]
  · intro a ha3 haj
    rw [writeB_apply_other _ _ _ _ ha3, writeB_apply_other _ _ _ _ haj]

theorem alloc_v1_full (img : Img) :
    (∀ i < readB img 2, readB img (4 + i) = 255) ↔
      ((allocatePage img).1 = 0 ∧ ∀ a, (allocatePage img).2 a = img a) := by
  constructor
  · intro hall
    have hfind : findFirstNonFF (fun i => readB img (4 + i)) (readB img 2) 0 = none :=
      (findFirstNonFF_eq_none _ 0).2 (fun k hk => by simpa using hall k hk)
    simp [allocatePage, hfind]
  · rintro ⟨h0, hsame⟩ i hi
    cases hfind : findFirstNonFF (fun i => readB img (4 + i)) (readB img 2) 0 with
    | none =>
      have := (findFirstNonFF_eq_none _ 0).1 hfind i hi
      simpa using this
    | some j =>
      exfalso
      have h3 := hsame 3
      simp only [allocatePage, hfind] at h3
      rw [writeB_apply_same] at h3
      rw [readB_writeB_other _ _ _ _ (by omega)] at h3
      have : img 3 % 256 < 256 := Nat.mod_lt _ (by norm_num)
      simp only [readB] at h3
      omega

theorem alloc_v2_success (s : V2State) (p : Nat) (hb : s.bitmap_size ≤ 8192)
    (hp : p < 8 * s.bitmap_size) (hfree : bitFreeV2 s p)
    (hleast : ∀ q < p, ¬ bitFreeV2 s q) :
    (allocatePage_v2 s).1 = p ∧
    (allocatePage_v2 s).2.free_pages = (s.free_pages + 65535) % 65536 ∧
    (allocatePage_v2 s).2.pages_bitmap (p / 8) =
      (s.pages_bitmap (p / 8) % 256) ||| (1 <<< (p % 8)) ∧
    (∀ j, j ≠ p / 8 → (allocatePage_v2 s).2.pages_bitmap j = s.pages_bitmap j) ∧
    (allocatePage_v2 s).2.fat = s.fat ∧ (allocatePage_v2 s).2.data = s.data := by
  have hk8 : p % 8 < 8 := Nat.mod_lt _ (by norm_num)
  have hlt8 : ∀ j : Nat, s.pages_bitmap j % 256 < 256 := fun j => Nat.mod_lt _ (by norm_num)
  have hbefore : ∀ i, i < p / 8 → s.pages_bitmap i % 256 = 255 := by
    intro i hi
    apply byte_allset_eq_255 _ (hlt8 i)
    intro k hk
    have hq := hleast (8 * i + k) (by omega)
    simp only [bitFreeV2] at hq
    rw [show (8 * i + k) / 8 = i by omega, show (8 * i + k) % 8 = k by omega] at hq
    exact hq
  have hvne : s.pages_bitmap (p / 8) % 256 ≠ 255 := by
    intro hv
    simp only [bitFreeV2, hv] at hfree
    exact ff_bit_set _ hk8 hfree
  have hfind : findFirstNonFF (fun i => s.pages_bitmap i % 256) s.bitmap_size 0 = some (p / 8) :=
    findFirstNonFF_eq_some _ 0 _ (Nat.zero_le _) (by omega) hvne
      (fun k _ hk2 => hbefore k hk2)
  have hidx : lowestZeroBit 16 (s.pages_bitmap (p / 8) % 256) = p % 8 := by
    apply lzb_least _ (hlt8 _) _ hk8 hfree
    intro m hm
    have hq := hleast (8 * (p / 8) + m) (by omega)
    simp only [bitFreeV2] at hq
    rw [show (8 * (p / 8) + m) / 8 = p / 8 by omega,
        show (8 * (p / 8) + m) % 8 = m by omega] at hq
    exact hq
  have hlt : (s.pages_bitmap (p / 8) % 256) ||| (1 <<< (p % 8)) < 256 :=
    (byte_or_bit _ (hlt8 _) _ hk8).1
  simp only [allocatePage_v2, hfind, hidx]
  refine ⟨by omega, trivial, ?_, ?_, trivial, trivial⟩
  · rw [if_pos trivial]
    exact Nat.mod_eq_of_lt hlt
  · intro j hj
    rw [if_neg hj]

theorem alloc_v2_full (s : V2State) :
    (∀ i < s.bitmap_size, s.pages_bitmap i % 256 = 255) ↔
      ((allocatePage_v2 s).1 = 0 ∧ (allocatePage_v2 s).2 = s) := by
  constructor
  · intro hall
    have hfind : findFirstNonFF (fun i => s.pages_bitmap i % 256) s.bitmap_size 0 = none :=
      (findFirstNonFF_eq_none _ 0).2 (fun k hk => by simpa using hall k hk)
    simp [allocatePage_v2, hfind]
  · rintro ⟨h0, hsame⟩ i hi
    cases hfind : findFirstNonFF (fun i => s.pages_bitmap i % 256) s.bitmap_size 0 with
    | none =>
      have := (findFirstNonFF_eq_none _ 0).1 hfind i hi
      simpa using this
    | some j =>
      exfalso
      have hfp := congrArg V2State.free_pages hsame
      simp only [allocatePage_v2, hfind] at hfp
      have : s.free_pages % 65536 < 65536 := Nat.mod_lt _ (by norm_num)
      omega

/-- C4: `allocatePage` (V1 `zealfs.h` and V2 `zealfs_v2.h`) returns the
lowest-numbered page whose bitmap bit is 0 — scanning bytes in order, then bits
LSB-first — sets exactly that bit and decrements `free_pages` (the C `u8`/`u16`
decrement, i.e. modulo 2^8 / 2^16); it returns the sentinel 0 without modifying
the state if and only if every one of the first `bitmap_size` bitmap bytes is
0xFF.  The size bounds reflect the declared 32-byte V1 bitmap array and the
65536-page V2 limit. -/
theorem C4_allocatePage_lowest_free :
    (∀ (img : Img) (p : Nat), readB img 2 ≤ 32 → p < 8 * readB img 2 →
      bitFreeV1 img p → (∀ q < p, ¬ bitFreeV1 img q) →
      (allocatePage img).1 = p ∧
      readB (allocatePage img).2 3 = (readB img 3 + 255) % 256 ∧
      readB (allocatePage img).2 (4 + p / 8) = readB img (4 + p / 8) ||| (1 <<< (p % 8)) ∧
      (∀ a, a ≠ 3 → a ≠ 4 + p / 8 → (allocatePage img).2 a = img a)) ∧
    (∀ img : Img, (∀ i < readB img 2, readB img (4 + i) = 255) ↔
      ((allocatePage img).1 = 0 ∧ ∀ a, (allocatePage img).2 a = img a)) ∧
    (∀ (s : V2State) (p : Nat), s.bitmap_size ≤ 8192 → p < 8 * s.bitmap_size →
      bitFreeV2 s p → (∀ q < p, ¬ bitFreeV2 s q) →
      (allocatePage_v2 s).1 = p ∧
      (allocatePage_v2 s).2.free_pages = (s.free_pages + 65535) % 65536 ∧
      (allocatePage_v2 s).2.pages_bitmap (p / 8) =
        (s.pages_bitmap (p / 8) % 256) ||| (1 <<< (p % 8)) ∧
      (∀ j, j ≠ p / 8 → (allocatePage_v2 s).2.pages_bitmap j = s.pages_bitmap j) ∧
      (allocatePage_v2 s).2.fat = s.fat ∧ (allocatePage_v2 s).2.data = s.data) ∧
    (∀ s : V2State, (∀ i < s.bitmap_size, s.pages_bitmap i % 256 = 255) ↔
      ((allocatePage_v2 s).1 = 0 ∧ (allocatePage_v2 s).2 = s)) :=
  ⟨alloc_v1_success, alloc_v1_full, alloc_v2_success, alloc_v2_full⟩

/-- Witness for C4: on the freshly formatted images, the allocator hands out
page 1 (V1) and page 3 (V2) and decrements the free counters to 6 and 252. -/
theorem C4_witness :
    ((allocatePage fmt2048).1 = 1 ∧ readB (allocatePage fmt2048).2 3 = 6) ∧
    ((allocatePage_v2 v2fmt64k).1 = 3 ∧ (allocatePage_v2 v2fmt64k).2.free_pages = 252) := by
  have h1 := C4_allocatePage_lowest_free.1 fmt2048 1 (by decide) (by decide) (by decide)
    (by decide)
  have h2 := C4_allocatePage_lowest_free.2.2.1 v2fmt64k 3 (by decide) (by decide) (by decide)
    (by decide)
  exact ⟨⟨h1.1, h1.2.1.trans (by decide)⟩, ⟨h2.1, h2.2.1.trans (by decide)⟩⟩


/-! ## Read clamping (claim C2) -/

theorem readLoopV1_succ (fuel : Nat) (img : Img) (ptr size oip : Nat) :
    readLoopV1 (fuel + 1) img ptr size oip =
      if size = 0 then []
      else
        let count := min (255 - oip) size
        ((List.range count).map fun j => readB img (ptr + 1 + oip + j)) ++
          readLoopV1 fuel img (if size ≠ count then readB img ptr <<< 8 else ptr)
            (size - count) 0 := rfl

theorem readLoopV1_length :
    ∀ fuel (img : Img) ptr size oip, size ≤ fuel → oip < 255 →
      (readLoopV1 fuel img ptr size oip).length = size := by
  intro fuel
  induction fuel with
  | zero =>
    intro img ptr size oip hle _
    interval_cases size
    rfl
  | succ f ih =>
    intro img ptr size oip hle hoip
    rw [readLoopV1_succ]
    by_cases hz : size = 0
    · simp [hz]
    · rw [if_neg hz]
      have hcount : 1 ≤ min (255 - oip) size := by omega
      have hrec := ih img (if size ≠ min (255 - oip) size then readB img ptr <<< 8 else ptr)
        (size - min (255 - oip) size) 0 (by omega) (by omega)
      simp only [List.length_append, List.length_map, List.length_range, hrec]
      omega

theorem readLoopV2_succ (P fuel : Nat) (s : V2State) (cur size oip : Nat) :
    readLoopV2 P (fuel + 1) s cur size oip =
      if size = 0 then []
      else
        let count := min (P - oip) size
        ((List.range count).map fun j => s.data (cur * P + oip + j) % 256) ++
          readLoopV2 P fuel s (if size ≠ count then getNextFromFat s cur else cur)
            (size - count) 0 := rfl

theorem readLoopV2_length :
    ∀ (P : Nat) fuel (s : V2State) cur size oip, 0 < P → size ≤ fuel → oip < P →
      (readLoopV2 P fuel s cur size oip).length = size := by
  intro P fuel
  induction fuel with
  | zero =>
    intro s cur size oip _ hle _
    interval_cases size
    rfl
  | succ f ih =>
    intro s cur size oip hP hle hoip
    rw [readLoopV2_succ]
    by_cases hz : size = 0
    · simp [hz]
    · rw [if_neg hz]
      have hcount : 1 ≤ min (P - oip) size := by omega
      have hrec := ih s (if size ≠ min (P - oip) size then getNextFromFat s cur else cur)
        (size - min (P - oip) size) 0 hP (by omega) (by omega)
      simp only [List.length_append, List.length_map, List.length_range, hrec]
      omega

theorem getPageSize_pos (s : V2State) : 0 < getPageSize s := by
  simp only [getPageSize, Nat.shiftLeft_eq]
  positivity

/-- C2 (amended): in both V1 and V2 the read loop copies, and the call returns,
exactly `min size entry.size` bytes — the clamp uses the whole recorded size,
not the portion after `offset`. -/
theorem C2_read_returns_min_of_size :
    (∀ (img : Img) (e size offset : Nat),
      (zealfs_read_v1 img e size offset).2 = min size (entrySizeV1 img e) ∧
      (zealfs_read_v1 img e size offset).1.length = min size (entrySizeV1 img e)) ∧
    (∀ (s : V2State) (e : V2Entry) (size offset : Nat),
      (zealfs_read_v2 s e size offset).2 = min size e.size ∧
      (zealfs_read_v2 s e size offset).1.length = min size e.size) := by
  constructor
  · intro img e size offset
    refine ⟨rfl, ?_⟩
    exact readLoopV1_length _ img _ _ _ le_rfl (Nat.mod_lt _ (by norm_num))
  · intro s e size offset
    refine ⟨rfl, ?_⟩
    exact readLoopV2_length _ _ s _ _ _ (getPageSize_pos s) le_rfl
      (Nat.mod_lt _ (getPageSize_pos s))

/-- C2 counterexample: on a file of recorded size 2, a read of 1 byte at offset 2
returns 1 byte, not `min 1 (2 - 2) = 0` — the code does not clamp to
`entry.size - offset`. -/
theorem C2_counterexample :
    (zealfs_read_v1 imgHi 224 1 2).2 = 1 ∧ entrySizeV1 imgHi 224 = 2 ∧
    (zealfs_read_v1 imgHi 224 1 2).2 ≠ min 1 (entrySizeV1 imgHi 224 - 2) :=
  ⟨by rfl, by rfl, by decide⟩


/-! ## The write no-space pre-check (claim C3) -/

/-- C3 (amended): when `free_pages * payload + (payload - offset % payload)` is
smaller than the requested size, both V1 and V2 writes fail with `-EFBIG`
before any mutation — V2's `-ENOSPC` is produced only by a mid-loop allocation
failure, not by this pre-check. -/
theorem C3_write_precheck_efbig :
    (∀ (img : Img) (e : Nat) (buf : List Nat) (size offset : Nat),
      readB img 3 * 255 + (255 - offset % 255) < size →
      zealfs_write_v1 img e buf size offset = (Except.error EFBIG, img)) ∧
    (∀ (s : V2State) (e : V2Entry) (buf : List Nat) (size offset : Nat),
      s.free_pages * getPageSize s + (getPageSize s - offset % getPageSize s) < size →
      zealfs_write_v2 s e buf size offset = (Except.error EFBIG, s, e)) := by
  constructor
  · intro img e buf size offset h
    simp only [zealfs_write_v1]
    rw [if_pos h]
  · intro s e buf size offset h
    simp only [zealfs_write_v2]
    rw [if_pos h]

/-- Witness for C3: concrete short-on-space writes on the formatted images fail
with `-EFBIG` and leave the state untouched. -/
theorem C3_witness :
    zealfs_write_v1 fmt2048 224 [] 2041 0 = (Except.error EFBIG, fmt2048) ∧
    zealfs_write_v2 v2fmt64k v2entry5 [] 65025 0 = (Except.error EFBIG, v2fmt64k, v2entry5) :=
  ⟨C3_write_precheck_efbig.1 fmt2048 224 [] 2041 0 (by decide),
   C3_write_precheck_efbig.2 v2fmt64k v2entry5 [] 65025 0 (by decide)⟩

/-- C3 counterexample: the V2 pre-check path returns `-EFBIG`, not the
`-ENOSPC` the claim states. -/
theorem C3_counterexample :
    (zealfs_write_v2 v2fmt64k v2entry5 [] 65025 0).1 = Except.error EFBIG ∧
    (Except.error EFBIG : Except Nat Nat) ≠ Except.error ENOSPC :=
  ⟨by rfl, by simp [EFBIG, ENOSPC]⟩


/-! ## Write chain extension (claim C5): helper lemmas -/

theorem shiftLeft8_mod (n : Nat) : (n <<< 8) % 256 = 0 := by
  rw [Nat.shiftLeft_eq]
  omega

theorem jumpChainV1_aligned (img : Img) :
    ∀ n ptr, ptr % 256 = 0 → (jumpChainV1 img ptr n) % 256 = 0 := by
  intro n
  induction n with
  | zero => intro ptr h; exact h
  | succ m ih => intro ptr _; exact ih _ (shiftLeft8_mod _)

theorem findFirstNonFF_some_ne {get : Nat → Nat} :
    ∀ n i j, findFirstNonFF get n i = some j → get j ≠ 255 := by
  intro n
  induction n with
  | zero => intro i j h; exact Option.noConfusion h
  | succ m ih =>
    intro i j h
    rw [findFirstNonFF_succ] at h
    by_cases hi : get i ≠ 255
    · rw [if_pos hi] at h
      cases h
      exact hi
    · rw [if_neg hi] at h
      exact ih _ _ h

theorem alloc_v1_lt (img : Img) : (allocatePage img).1 < 256 := by
  rcases hfind : findFirstNonFF (fun i => readB img (4 + i)) (readB img 2) 0 with _ | i
  · simp [allocatePage, hfind]
  · simp only [allocatePage, hfind]
    exact Nat.mod_lt _ (by norm_num)

/-- `allocatePage` never stores a zero into any byte it modifies at a page
boundary: the only boundary byte it can touch is a bitmap byte, and its new
value has a fresh bit set. -/
theorem alloc_link_inv (img : Img) (p : Nat)
    (h : readB (allocatePage img).2 (256 * p) ≠ readB img (256 * p)) :
    readB (allocatePage img).2 (256 * p) ≠ 0 := by
  rcases hfind : findFirstNonFF (fun i => readB img (4 + i)) (readB img 2) 0 with _ | i
  · simp only [allocatePage, hfind] at h
    exact absurd rfl h
  · have hne : readB img (4 + i) ≠ 255 := by
      have := findFirstNonFF_some_ne _ _ _ hfind
      simpa using this
    have hidx : lowestZeroBit 16 (readB img (4 + i)) < 8 :=
      (lzb_spec _ (readB_lt img _) hne).1
    have hor := byte_or_bit (readB img (4 + i)) (readB_lt img (4 + i))
      (lowestZeroBit 16 (readB img (4 + i))) hidx
    simp only [allocatePage, hfind] at h ⊢
    rw [readB_writeB_other _ _ _ _ (by omega)] at h ⊢
    by_cases hb : 256 * p = 4 + i
    · rw [hb, readB_writeB_same, Nat.mod_eq_of_lt hor.1]
      exact hor.2
    · rw [readB_writeB_other _ _ _ _ hb] at h
      exact absurd rfl h

theorem memcpyB_boundary (img : Img) (ptr oip : Nat) (src : List Nat) (count p : Nat)
    (hptr : ptr % 256 = 0) (hcount : oip + count ≤ 255) :
    memcpyB img (ptr + 1 + oip) src count (256 * p) = img (256 * p) := by
  rw [memcpyB]
  rw [if_neg]
  omega

theorem wstep_boundary (img : Img) (e ptr : Nat) (buf : List Nat) (count oip p : Nat)
    (hptr : ptr % 256 = 0) (hcount : oip + count ≤ 255)
    (h18 : (e + 18) % 256 ≠ 0) (h19 : (e + 19) % 256 ≠ 0) :
    readB (wstep img e ptr buf count oip) (256 * p) = readB img (256 * p) := by
  unfold wstep
  rw [readB_writeB_other _ _ _ _ (by omega), readB_writeB_other _ _ _ _ (by omega)]
  unfold readB
  rw [memcpyB_boundary img ptr oip buf count p hptr hcount]

theorem writeLoopV1_link_inv :
    ∀ fuel (img0 img : Img) (e ptr : Nat) (buf : List Nat) (size oip : Nat) (img2 : Img),
      writeLoopV1 fuel img e ptr buf size oip = some img2 →
      ptr % 256 = 0 → oip < 255 →
      (e + 18) % 256 ≠ 0 → (e + 19) % 256 ≠ 0 →
      (∀ p, readB img (256 * p) ≠ readB img0 (256 * p) → readB img (256 * p) ≠ 0) →
      (∀ p, readB img2 (256 * p) ≠ readB img0 (256 * p) → readB img2 (256 * p) ≠ 0) := by
  intro fuel
  induction fuel with
  | zero =>
    intro img0 img e ptr buf size oip img2 hrun _ _ _ _ hinv
    simp only [writeLoopV1] at hrun
    cases hrun
    exact hinv
  | succ f ih =>
    intro img0 img e ptr buf size oip img2 hrun hptr hoip h18 h19 hinv
    simp only [writeLoopV1] at hrun
    by_cases hz : size = 0
    · rw [if_pos hz] at hrun
      cases hrun
      exact hinv
    · rw [if_neg hz] at hrun
      have hWinv : ∀ p, readB (wstep img e ptr buf (min (255 - oip) size) oip) (256 * p) ≠
          readB img0 (256 * p) →
          readB (wstep img e ptr buf (min (255 - oip) size) oip) (256 * p) ≠ 0 := by
        intro p hp
        rw [wstep_boundary img e ptr buf _ oip p hptr (by omega) h18 h19] at hp ⊢
        exact hinv p hp
      split at hrun
      · exact ih img0 _ e _ _ _ 0 img2 hrun (shiftLeft8_mod _) (by omega) h18 h19 hWinv
      · split at hrun
        · split at hrun
          · exact Option.noConfusion hrun
          · rename_i hnext hsz hr0
            refine ih img0 _ e _ _ _ 0 img2 hrun (shiftLeft8_mod _) (by omega) h18 h19 ?_
            intro p hp
            by_cases hb : 256 * p = ptr
            · rw [hb, readB_writeB_same,
                Nat.mod_eq_of_lt (alloc_v1_lt (wstep img e ptr buf (min (255 - oip) size) oip))]
              exact hr0
            · rw [readB_writeB_other _ _ _ _ hb] at hp ⊢
              by_cases hc : readB (allocatePage (wstep img e ptr buf (min (255 - oip) size) oip)).2
                  (256 * p) = readB (wstep img e ptr buf (min (255 - oip) size) oip) (256 * p)
              · rw [hc] at hp ⊢
                exact hWinv p hp
              · exact alloc_link_inv _ p hc
        · cases hrun
          exact hWinv

theorem alloc_v2_fat (s : V2State) : (allocatePage_v2 s).2.fat = s.fat := by
  rcases hfind : findFirstNonFF (fun i => s.pages_bitmap i % 256) s.bitmap_size 0 with _ | i <;>
    simp [allocatePage_v2, hfind]

theorem alloc_v2_lt (s : V2State) : (allocatePage_v2 s).1 < 65536 := by
  rcases hfind : findFirstNonFF (fun i => s.pages_bitmap i % 256) s.bitmap_size 0 with _ | i
  · simp [allocatePage_v2, hfind]
  · simp only [allocatePage_v2, hfind]
    exact Nat.mod_lt _ (by norm_num)

theorem writeLoopV2_fat_inv :
    ∀ (P fuel : Nat) (s0 s : V2State) (e : V2Entry) (ptr cur : Nat) (buf : List Nat)
      (size oip : Nat) (ret : Except Nat Unit) (s2 : V2State) (e2 : V2Entry),
      writeLoopV2 P fuel s e ptr cur buf size oip = (ret, s2, e2) →
      (∀ p, s.fat p ≠ s0.fat p → s.fat p ≠ 0) →
      (∀ p, s2.fat p ≠ s0.fat p → s2.fat p ≠ 0) := by
  intro P fuel
  induction fuel with
  | zero =>
    intro s0 s e ptr cur buf size oip ret s2 e2 hrun hinv
    simp only [writeLoopV2] at hrun
    cases hrun
    exact hinv
  | succ f ih =>
    intro s0 s e ptr cur buf size oip ret s2 e2 hrun hinv
    simp only [writeLoopV2] at hrun
    by_cases hz : size = 0
    · rw [if_pos hz] at hrun
      cases hrun
      exact hinv
    · rw [if_neg hz] at hrun
      split at hrun
      · exact ih s0 _ _ _ _ _ _ 0 ret s2 e2 hrun hinv
      · split at hrun
        · split at hrun
          · cases hrun
            rw [alloc_v2_fat]
            exact hinv
          · rename_i hnext hsz hr0
            refine ih s0 _ _ _ _ _ _ 0 ret s2 e2 hrun ?_
            intro p hp
            simp only [setNextInFat] at hp ⊢
            by_cases hc : p = cur
            · rw [if_pos hc] at hp ⊢
              rw [Nat.mod_eq_of_lt (alloc_v2_lt _)]
              exact hr0
            · rw [if_neg hc] at hp ⊢
              rw [alloc_v2_fat] at hp ⊢
              exact hinv p hp
        · cases hrun
          exact hinv

/-- C5 (amended): during a successful write the code follows the existing chain
and, when the current page has no successor and bytes remain, allocates a new
page and links its (nonzero) number as the successor — but it never stores a
zero into any link byte (V1) or FAT slot (V2): the newly linked page's own link
field is left with whatever value it held.  The V1 alignment hypotheses say the
entry's size field does not straddle a page boundary (true of every real
32-byte-aligned directory slot). -/
theorem C5_write_never_zeroes_links :
    (∀ (img : Img) (e : Nat) (buf : List Nat) (size offset t : Nat) (img2 : Img),
      zealfs_write_v1 img e buf size offset = (Except.ok t, img2) →
      (e + 18) % 256 ≠ 0 → (e + 19) % 256 ≠ 0 →
      ∀ p, readB img2 (256 * p) ≠ readB img (256 * p) → readB img2 (256 * p) ≠ 0) ∧
    (∀ (s : V2State) (e : V2Entry) (buf : List Nat) (size offset t : Nat)
        (s2 : V2State) (e2 : V2Entry),
      zealfs_write_v2 s e buf size offset = (Except.ok t, s2, e2) →
      ∀ p, s2.fat p ≠ s.fat p → s2.fat p ≠ 0) := by
  constructor
  · intro img e buf size offset t img2 h h18 h19
    simp only [zealfs_write_v1] at h
    split at h
    · exact absurd (congrArg Prod.fst h) (by simp)
    · split at h
      · exact absurd (congrArg Prod.fst h) (by simp)
      · rename_i im hrun
        have him : img2 = im := by
          have := congrArg Prod.snd h
          exact this.symm
        subst him
        exact writeLoopV1_link_inv size img img e _ buf size _ _ hrun
          (jumpChainV1_aligned img _ _ (shiftLeft8_mod _))
          (Nat.mod_lt _ (by norm_num)) h18 h19
          (fun p hp => absurd rfl hp)
  · intro s e buf size offset t s2 e2 h
    simp only [zealfs_write_v2] at h
    split at h
    · exact absurd (congrArg Prod.fst h) (by simp)
    · split at h
      · rename_i s' e' hrun
        have hs : s2 = s' := by
          have := congrArg (fun x => x.2.1) h
          exact this.symm
        subst hs
        exact writeLoopV2_fat_inv _ size s s e _ _ buf size _ _ _ e' hrun
          (fun p hp => absurd rfl hp)
      · exact absurd (congrArg Prod.fst h) (by simp)

/-- C5 counterexample: in the concrete V1 run `runWriteB`, page 2 is freshly
allocated by the write and linked after page 1, yet after the write its own
link byte still holds the stale value 3 — it is not zeroed. -/
theorem C5_counterexample :
    runWriteB.1 = Except.ok 300 ∧
    readB imgCreateB 4 &&& 4 = 0 ∧
    readB imgWriteB 4 &&& 4 = 4 ∧
    readB imgWriteB 256 = 2 ∧
    readB imgWriteB 512 = 3 :=
  ⟨by rfl, by decide, by decide, by decide, by decide⟩

/-- Witness for C5: the link bytes/FAT slots modified by concrete writes hold
nonzero values. -/
theorem C5_witness :
    readB imgWriteB (256 * 1) ≠ 0 ∧
    (zealfs_write_v2 v2fmt64k v2entry5 (List.replicate 300 7) 300 0).2.1.fat 5 ≠ 0 :=
  ⟨C5_write_never_zeroes_links.1 imgCreateB 224 bufB 300 0 300 imgWriteB (by rfl)
      (by decide) (by decide) 1 (by decide),
   C5_write_never_zeroes_links.2 v2fmt64k v2entry5 (List.replicate 300 7) 300 0 300
      (zealfs_write_v2 v2fmt64k v2entry5 (List.replicate 300 7) 300 0).2.1
      (zealfs_write_v2 v2fmt64k v2entry5 (List.replicate 300 7) 300 0).2.2 (by rfl) 5
      (by decide)⟩

/-! ## Free-slot recording during the scan (claim C7) -/

theorem foldl_overwrite (g : Nat → Option Nat) :
    ∀ (L : List Nat) (acc : Option Nat),
      L.foldl (fun _ k => g k) acc =
        (match L.getLast? with | some k => g k | none => acc) := by
  intro L
  induction L with
  | nil => intro acc; rfl
  | cons a l ih =>
    intro acc
    rw [List.foldl_cons, ih]
    cases l with
    | nil => rfl
    | cons b l2 =>
      rw [List.getLast?_cons_cons]
      cases hgl : (b :: l2).getLast? with
      | none =>
        exact absurd hgl (by simp)
      | some k => rfl

theorem scanDir_free_slot_foldl (img : Img) (seg : List Nat) (base : Nat) :
    ∀ count (i : Nat) (acc : Option Nat),
      (scanDir img seg base true true count i acc).2 =
        (scannedFreeIdxs img seg base count i).foldl (fun _ k => some (base + 32 * k)) acc := by
  intro count
  induction count with
  | zero => intro i acc; rfl
  | succ n ih =>
    intro i acc
    have hrange : List.range' i (n + 1) = i :: List.range' (i + 1) n := rfl
    by_cases hocc : readB img (base + 32 * i) &&& 128 = 0
    · have hoccB : occB img (base + 32 * i) = false := by
        simp [occB, hocc]
      have hspec : scannedFreeIdxs img seg base (n + 1) i =
          i :: scannedFreeIdxs img seg base n (i + 1) := by
        simp [scannedFreeIdxs, hrange, List.takeWhile_cons, List.filter_cons, hoccB]
      rw [hspec, List.foldl_cons]
      simp only [scanDir]
      rw [if_pos hocc]
      exact ih (i + 1) (some (base + 32 * i))
    · have hoccB : occB img (base + 32 * i) = true := by
        simp only [occB, bne_iff_ne, ne_eq]
        exact fun hc => hocc hc
      by_cases hm : cmpNZ (fun j => readB img (base + 32 * i + 1 + j))
          (fun j => seg.getD j 0 % 256) 0 16
      · have hmB : matchB img seg (base + 32 * i) = true := hm
        have hspec : scannedFreeIdxs img seg base (n + 1) i = [] := by
          simp [scannedFreeIdxs, hrange, List.takeWhile_cons, hoccB, hmB]
        rw [hspec]
        simp only [scanDir]
        rw [if_neg hocc, if_pos hm]
        rfl
      · have hmB : matchB img seg (base + 32 * i) = false := by
          simp only [matchB]
          exact Bool.eq_false_iff.2 hm
        have hspec : scannedFreeIdxs img seg base (n + 1) i =
            scannedFreeIdxs img seg base n (i + 1) := by
          simp [scannedFreeIdxs, hrange, List.takeWhile_cons, List.filter_cons, hoccB, hmB]
        rw [hspec]
        simp only [scanDir]
        rw [if_neg hocc, if_neg hm]
        exact ih (i + 1) acc

/-- C7 (amended): while scanning the final directory with a free-slot request,
every unoccupied slot encountered overwrites `out_free_slot`, so what is
recorded is the **last** unoccupied slot scanned before the loop returns (the
highest-indexed free slot preceding the first name match, if any; the caller's
previous value if none was seen).  Consequently create and mkdir populate the
highest-indexed such slot, not the lowest. -/
theorem C7_last_free_slot_wins :
    ∀ (img : Img) (seg : List Nat) (base count i : Nat) (acc : Option Nat),
      (scanDir img seg base true true count i acc).2 =
        (match (scannedFreeIdxs img seg base count i).getLast? with
         | some k => some (base + 32 * k)
         | none => acc) := by
  intro img seg base count i acc
  rw [scanDir_free_slot_foldl, foldl_overwrite]

/-- C7 counterexample: on the freshly formatted image every root slot is free,
yet the recorded free slot is 224 (slot 5), not 64 (slot 0), and `create /x`
populates slot 224. -/
theorem C7_counterexample :
    (browse_path fmt2048 [120] true).2 = some 224 ∧
    readB fmt2048 64 &&& 128 = 0 ∧
    (zealfs_create_v1 fmt2048 pX t0).toOption.map Prod.fst = some 224 ∧
    (224 : Nat) ≠ 64 := by
  refine ⟨by decide, by decide, by decide, by decide⟩

/-! ## Closed runs settling the remaining claims -/

/-- C1 (code bug): after the from-format sequence
`create /a; write 600 B; unlink /a; create /b; write 300 B; unlink /b`
(all operations return success), `free_pages` is 8 while the bitmap holds only
7 zero bits: `unlink /b` followed the stale link of page 2 and freed the
already-free page 3. -/
theorem C1_free_pages_diverges_from_bitmap :
    runCreateA.toOption.map Prod.fst = some 224 ∧
    runWriteA.1 = Except.ok 600 ∧
    runUnlinkA.1 = Except.ok () ∧
    runCreateB.toOption.map Prod.fst = some 224 ∧
    runWriteB.1 = Except.ok 300 ∧
    runUnlinkB.1 = Except.ok () ∧
    readB imgFinal 3 = 8 ∧
    specZeroBitCount imgFinal = 7 :=
  ⟨by decide, by rfl, by rfl, by decide, by rfl, by rfl, by decide, by decide⟩

/-- C6 (code bug): V1 `unlink` of the 2-page file `/a` (chain 1 → 2) frees both
pages and clears the entry flags, but leaves the link byte of page 1 at 2
instead of clearing it to 0 as the claim (and the V2 code) prescribe. -/
theorem C6_unlink_leaves_stale_links :
    runWriteA300.1 = Except.ok 300 ∧
    readB imgA300 256 = 2 ∧
    runUnlinkA300.1 = Except.ok () ∧
    readB imgUnlinkA300 3 = 7 ∧
    readB imgUnlinkA300 4 = 1 ∧
    readB imgUnlinkA300 224 = 0 ∧
    readB imgUnlinkA300 256 = 2 :=
  ⟨by rfl, by decide, by rfl, by decide, by decide, by decide, by decide⟩

/-- C8 (code bug): `create` of a path with a 17-byte basename fails with
`-ENFILE`, not `-ENAMETOOLONG`: `browse_path` rejects the long segment before
recording any free slot, so the `!empty` check fires first and the function's
own `-ENAMETOOLONG` branch is unreachable. -/
theorem C8_long_basename_gives_enfile :
    zealfs_create_v1 fmt2048 pLong t0 = Except.error ENFILE ∧
    ENFILE ≠ ENAMETOOLONG :=
  ⟨by rfl, by decide⟩

/-- C9 (code bug): V2 `format` of a 64 KB image picks 256-byte pages (code 0),
yet reserves **two** FAT pages — it marks pages 0, 1 and 2 allocated
(`pages_bitmap[0] = 7`) and sets `free_pages = 253`, because the code compares
the page-size *code* with 256, contradicting its own comment. -/
theorem C9_format_v2_always_two_fat_pages :
    getPageSize v2fmt64k = 256 ∧
    v2fmt64k.pages_bitmap 0 = 7 ∧
    v2fmt64k.free_pages = 253 ∧
    v2fmt64k.pages_bitmap 0 ≠ 3 ∧
    v2fmt64k.free_pages ≠ 254 :=
  ⟨by decide, by decide, by decide, by decide, by decide⟩

/-- C10: path resolution recurses through `/f` although `/f` is a plain file
(flags 0x80, IS_DIR bit clear): `open("/f/x")` succeeds with the entry parsed
out of `/f`'s first content page (address 288, an occupied slot) instead of
failing with `-ENOTDIR`. -/
theorem C10_browse_recurses_into_file :
    readB imgFX 224 &&& 128 = 128 ∧
    readB imgFX 224 &&& 1 = 0 ∧
    zealfs_open_v1 imgFX pFX = Except.ok 288 ∧
    readB imgFX 288 &&& 128 = 128 :=
  ⟨by decide, by decide, by rfl, by decide⟩
end ZealFS
